import Mathlib

/-!
# Verification of the memoized multi-backend translation dispatcher

Shallow embedding of `src/app.py` (Flask translation façade):

* `lruCall` models Python's `functools.lru_cache(maxsize=1000)` applied to a
  function: the cache is an association list with the most-recently-used entry
  first; a hit moves the entry to the front and does not invoke the function,
  a miss invokes the function, inserts the result (whatever it is, `None`
  included) at the front, and truncates to the capacity.
* `cached_translation` models the decorated function `cached_translation`
  (app.py lines 13-28): selection of a provider strategy by service name with
  fallback to google, and a try/except that turns any provider exception into
  the value `None` (here `Option.none`).
* `translate` models the single-text endpoint body (lines 30-76) after JSON
  extraction: trim, emptiness check, 5000-char cap, dispatch, response.
* `batch_translate` models the batch endpoint body (lines 188-252):
  structural checks, then the per-item loop with validation, dispatch and
  per-item error capture, threading the shared cache through the items.

Providers are out-of-repository collaborators (the deep_translator library);
they are parameters of the model, returning `Except String String`: a raised
exception is `Except.error msg` (the message is what `str(e)` would show).
-/

namespace AskCloud

/-- The `.strip()` method of Python strings: remove leading and trailing
whitespace characters, embedded over the character list of the string. -/
def pyStrip (s : String) : String :=
  String.mk (((s.data.dropWhile Char.isWhitespace).reverse.dropWhile
    Char.isWhitespace).reverse)

/-- A cache key of `lru_cache` on `cached_translation`: the positional
arguments `(text, source_lang, target_lang, service)`. -/
abbrev Key := String × String × String × String

/-- The memo cache: association list, most-recently-used entry first.
A value of `none` models a cached Python `None`. -/
abbrev Cache := List (Key × Option String)

/-- One call through an `lru_cache(maxsize=cap)`-decorated function `f`.
Returns (result, new cache, whether `f` was invoked).
On a hit the entry moves to the front (most recently used) and `f` is not
invoked; on a miss `f` is invoked, its result (also `none`) is inserted at
the front, and the least recently used entries beyond `cap` are dropped. -/
def lruCall (cap : Nat) (f : Key → Option String) (st : Cache) (k : Key) :
    Option String × Cache × Bool :=
  match st.find? (fun e => decide (e.1 = k)) with
  | some e => (e.2, e :: st.filter (fun e2 => !(decide (e2.1 = k))), false)
  | none => (f k, ((k, f k) :: st).take cap, true)

/-- The external provider strategies, one per supported backend name
(`GoogleTranslator`, `MicrosoftTranslator`, `MyMemoryTranslator`).
Each takes (source language, target language, text); `Except.error msg`
models a raised exception carrying message `msg`. -/
structure Providers where
  google : String → String → String → Except String String
  microsoft : String → String → String → Except String String
  mymemory : String → String → String → Except String String

/-- Backend selection inside `cached_translation` (app.py lines 16-23):
string branching on the service name, any unrecognized name falls through to
the google strategy. -/
def selectTranslator (P : Providers) (service : String) :
    String → String → String → Except String String :=
  if service = "google" then P.google
  else if service = "microsoft" then P.microsoft
  else if service = "mymemory" then P.mymemory
  else P.google

/-- The body of `cached_translation` (app.py lines 15-28): build the selected
translator with (source, target), translate the text, and catch every
exception, returning `None` (the exception message is only logged). -/
def translateOnce (P : Providers) : Key → Option String :=
  fun k =>
    match selectTranslator P k.2.2.2 k.2.1 k.2.2.1 k.1 with
    | .ok t => some t
    | .error _ => none

/-- `cached_translation(text, source_lang, target_lang, service)` as seen by
callers: an `lru_cache(maxsize=1000)` wrapper around `translateOnce`.
Returns (result, new cache, whether the provider body was invoked). -/
def cached_translation (P : Providers) (st : Cache)
    (text source_lang target_lang service : String) :
    Option String × Cache × Bool :=
  lruCall 1000 (translateOnce P) st (text, source_lang, target_lang, service)

/-- Response of the single-text `/translate` endpoint: either an error payload
with its HTTP status, or the success payload
(original_text, translated_text, source_language, target_language,
service_used) — the `success: True` flag and status 200 are implicit in
`ok`. -/
inductive SingleResponse where
  | err : String → Nat → SingleResponse
  | ok : String → String → String → String → String → SingleResponse
deriving DecidableEq, Repr

/-- Body of the `/translate` endpoint (app.py lines 38-68) after JSON
extraction, with the extracted fields as arguments (`text0` is the raw
`text` field). Returns (response, new cache, whether a provider call was
attempted). -/
def translate (P : Providers) (st : Cache)
    (text0 target_language source_language service : String) :
    SingleResponse × Cache × Bool :=
  let text := pyStrip text0
  if text = "" then (.err "Text is required" 400, st, false)
  else if text.length > 5000 then
    (.err "Text too long (max 5000 characters)" 400, st, false)
  else
    match cached_translation P st text source_language target_language service with
    | (none, st2, inv) => (.err "Translation failed" 500, st2, inv)
    | (some t, st2, inv) =>
      (.ok text t source_language target_language service, st2, inv)

/-- An element of the `texts` JSON array: either a string, or some other JSON
value of which only the Python truthiness matters (it always fails the
`isinstance(text, str)` check). -/
inductive JVal where
  | str : String → JVal
  | other : Bool → JVal
deriving DecidableEq, Repr

/-- One result row of the batch endpoint (app.py lines 207-238). -/
structure BatchItem where
  index : Nat
  original_text : JVal
  translated_text : String
  error : Option String
deriving DecidableEq, Repr

/-- One iteration of the batch loop (app.py lines 205-238) at index `i` on
item `t`: the `not text or not isinstance(text, str)` check, the per-item
5000-char cap on the raw text, then dispatch on the stripped text; a falsy
result (`None` or the empty string) yields error "Translation failed" and
empty translation. Returns (item, new cache, whether a provider call was
attempted). -/
def batchItemStep (P : Providers) (source_lang target_lang service : String)
    (st : Cache) (i : Nat) (t : JVal) : BatchItem × Cache × Bool :=
  match t with
  | .other _ => (⟨i, t, "", some "Invalid text"⟩, st, false)
  | .str s =>
    if s = "" then (⟨i, t, "", some "Invalid text"⟩, st, false)
    else if s.length > 5000 then (⟨i, t, "", some "Text too long"⟩, st, false)
    else
      match cached_translation P st (pyStrip s) source_lang target_lang service with
      | (none, st2, inv) => (⟨i, t, "", some "Translation failed"⟩, st2, inv)
      | (some tr, st2, inv) =>
        if tr = "" then (⟨i, t, "", some "Translation failed"⟩, st2, inv)
        else (⟨i, t, tr, none⟩, st2, inv)

/-- The batch loop: processes the items in order starting at index `i`,
threading the shared cache; every item contributes exactly one result row. -/
def processItems (P : Providers) (source_lang target_lang service : String) :
    Nat → Cache → List JVal → List BatchItem × Cache
  | _, st, [] => ([], st)
  | i, st, t :: ts =>
    let r := batchItemStep P source_lang target_lang service st i t
    let rest := processItems P source_lang target_lang service (i + 1) r.2.1 ts
    (r.1 :: rest.1, rest.2)

/-- Response of `/batch-translate`: an error payload with HTTP status, or
(results, total_processed, success) with status 200. -/
inductive BatchResponse where
  | err : String → Nat → BatchResponse
  | ok : List BatchItem → Nat → Bool → BatchResponse
deriving DecidableEq, Repr

/-- Body of the `/batch-translate` endpoint (app.py lines 192-244) after JSON
extraction: `not texts` is emptiness for a list, the 100-item cap, then the
loop; the success payload reports `total_processed = len(results)` and
`success = True`. -/
def batch_translate (P : Providers) (st : Cache) (texts : List JVal)
    (target_language source_language service : String) :
    BatchResponse × Cache :=
  if texts = [] then (.err "Texts array is required" 400, st)
  else if texts.length > 100 then (.err "Too many texts (max 100)" 400, st)
  else
    let r := processItems P source_language target_language service 0 st texts
    (.ok r.1 r.1.length true, r.2)

/-! ## Observers and concrete provider families used in the theorems -/

/-- Whether the cache currently holds an entry for key `k`. -/
def containsKey (st : Cache) (k : Key) : Bool :=
  st.any (fun e => decide (e.1 = k))

/-- The value currently cached for key `k` (first matching entry), or `none`
when the key is absent. The inner `Option String` is the cached return value
of `cached_translation` (which can itself be the cached Python `None`). -/
def lookupVal (st : Cache) (k : Key) : Option (Option String) :=
  (st.find? (fun e => decide (e.1 = k))).map (fun e => e.2)

/-- A sequence of dispatcher calls through the shared cache: each key in the
list is one `cached_translation` call, and only the cache evolution is
retained. -/
def runCalls (P : Providers) (st : Cache) (ks : List Key) : Cache :=
  ks.foldl (fun s k => (cached_translation P s k.1 k.2.1 k.2.2.1 k.2.2.2).2.1) st

/-- A provider family on which every strategy succeeds, tagging the text with
the strategy that produced it. -/
def okProviders : Providers where
  google := fun _ _ text => .ok ("G:" ++ text)
  microsoft := fun _ _ text => .ok ("M:" ++ text)
  mymemory := fun _ _ text => .ok ("Y:" ++ text)

/-- A provider family on which every strategy raises (network failure). -/
def failProviders : Providers where
  google := fun _ _ _ => .error "network down"
  microsoft := fun _ _ _ => .error "network down"
  mymemory := fun _ _ _ => .error "network down"

/-- A stub provider family that succeeds exactly on non-empty texts of at
most 5000 characters. -/
def stubProviders : Providers where
  google := fun _ _ text =>
    if text = "" then .error "empty text"
    else if 5000 < text.length then .error "text too long"
    else .ok ("G:" ++ text)
  microsoft := fun _ _ text =>
    if text = "" then .error "empty text"
    else if 5000 < text.length then .error "text too long"
    else .ok ("M:" ++ text)
  mymemory := fun _ _ text =>
    if text = "" then .error "empty text"
    else if 5000 < text.length then .error "text too long"
    else .ok ("Y:" ++ text)

/-- The key of the i-th distinct request used in the eviction scenarios: the
text is `i` repetitions of the letter a, translated from auto to es on the
google backend. -/
def ckey (i : Nat) : Key :=
  (String.mk (List.replicate i 'a'), "auto", "es", "google")

/-- A text of 5001 non-whitespace characters (`"x" * 5001`). -/
def longx : String := String.mk (List.replicate 5001 'x')

/-- A non-empty text of 5001 whitespace characters (`" " * 5001`). -/
def longspace : String := String.mk (List.replicate 5001 ' ')

/-! ## Generic lemmas about the lru_cache model -/

theorem containsKey_eq_false {st : Cache} {k : Key} :
    containsKey st k = false ↔ st.find? (fun e => decide (e.1 = k)) = none := by
  simp [containsKey, List.any_eq_false, List.find?_eq_none]

theorem lruCall_miss {cap : Nat} {f : Key → Option String} {st : Cache} {k : Key}
    (h : st.find? (fun e => decide (e.1 = k)) = none) :
    lruCall cap f st k = (f k, ((k, f k) :: st).take cap, true) := by
  simp [lruCall, h]

theorem lruCall_hit {cap : Nat} {f : Key → Option String} {st : Cache} {k : Key}
    {e : Key × Option String} (h : st.find? (fun e2 => decide (e2.1 = k)) = some e) :
    lruCall cap f st k = (e.2, e :: st.filter (fun e2 => !(decide (e2.1 = k))), false) := by
  simp [lruCall, h]

theorem lruCall_miss_state {cap : Nat} {f : Key → Option String} {st : Cache} {k : Key}
    (h : st.find? (fun e => decide (e.1 = k)) = none) :
    (lruCall cap f st k).2.1 = ((k, f k) :: st).take cap := by
  rw [lruCall_miss h]

theorem lruCall_hit_state {cap : Nat} {f : Key → Option String} {st : Cache} {k : Key}
    {e : Key × Option String} (h : st.find? (fun e2 => decide (e2.1 = k)) = some e) :
    (lruCall cap f st k).2.1 = e :: st.filter (fun e2 => !(decide (e2.1 = k))) := by
  rw [lruCall_hit h]

theorem lruCall_head {cap : Nat} (f : Key → Option String) (st : Cache) (k : Key)
    (hcap : 0 < cap) :
    ∃ rest, (lruCall cap f st k).2.1 = (k, (lruCall cap f st k).1) :: rest := by
  cases hfind : st.find? (fun e => decide (e.1 = k)) with
  | none =>
    obtain ⟨c, rfl⟩ := Nat.exists_eq_add_of_lt hcap
    rw [lruCall_miss hfind]
    exact ⟨st.take c, by simp [List.take_succ_cons]⟩
  | some e =>
    have he : e.1 = k := by simpa using List.find?_some hfind
    rw [lruCall_hit hfind]
    exact ⟨st.filter (fun e2 => !(decide (e2.1 = k))), by rw [← he]⟩

theorem lruCall_repeat {cap : Nat} (f : Key → Option String) (st : Cache) (k : Key)
    (hcap : 0 < cap) :
    (lruCall cap f (lruCall cap f st k).2.1 k).1 = (lruCall cap f st k).1 ∧
    (lruCall cap f (lruCall cap f st k).2.1 k).2.2 = false := by
  obtain ⟨rest, hst⟩ := lruCall_head f st k hcap
  rw [hst, lruCall_hit (e := (k, (lruCall cap f st k).1))
    (List.find?_cons_of_pos _ (by simp))]
  exact ⟨rfl, rfl⟩

theorem lruCall_invoked_result {cap : Nat} {f : Key → Option String} {st : Cache} {k : Key}
    (h : (lruCall cap f st k).2.2 = true) :
    (lruCall cap f st k).1 = f k := by
  cases hfind : st.find? (fun e => decide (e.1 = k)) with
  | none => rw [lruCall_miss hfind]
  | some e => rw [lruCall_hit hfind] at h; simp at h

theorem lruCall_read_own_entry {cap : Nat} {f : Key → Option String} {st : Cache} {k : Key}
    (h : (lruCall cap f st k).2.2 = false) :
    (k, (lruCall cap f st k).1) ∈ st := by
  cases hfind : st.find? (fun e => decide (e.1 = k)) with
  | none => rw [lruCall_miss hfind] at h; simp at h
  | some e =>
    have he : e.1 = k := by simpa using List.find?_some hfind
    have hmem : e ∈ st := List.mem_of_find?_eq_some hfind
    rw [lruCall_hit hfind]
    show (k, e.2) ∈ st
    rw [show (k, e.2) = e from by rw [← he]]
    exact hmem

theorem find?_filter_stable {α : Type} {p q : α → Bool} (l : List α)
    (h : ∀ x, p x = true → q x = true) : (l.filter q).find? p = l.find? p := by
  induction l with
  | nil => rfl
  | cons a t ih =>
    by_cases hpa : p a = true
    · rw [List.filter_cons_of_pos (h a hpa), List.find?_cons_of_pos _ hpa,
        List.find?_cons_of_pos _ hpa]
    · by_cases hqa : q a = true
      · rw [List.filter_cons_of_pos hqa, List.find?_cons_of_neg _ (by simp [hpa]),
          List.find?_cons_of_neg _ (by simp [hpa]), ih]
      · rw [List.filter_cons_of_neg (by simp [hqa]), List.find?_cons_of_neg _ (by simp [hpa]), ih]

theorem find?_take_cases {α : Type} {p : α → Bool} :
    ∀ (l : List α) (n : Nat), (l.take n).find? p = none ∨ (l.take n).find? p = l.find? p := by
  intro l
  induction l with
  | nil => intro n; left; simp
  | cons a t ih =>
    intro n
    cases n with
    | zero => left; simp
    | succ m =>
      rw [List.take_succ_cons]
      by_cases hpa : p a = true
      · right; rw [List.find?_cons_of_pos _ hpa, List.find?_cons_of_pos _ hpa]
      · rw [List.find?_cons_of_neg _ (by simp [hpa]), List.find?_cons_of_neg _ (by simp [hpa])]
        exact ih m

theorem lruCall_preserves_other {cap : Nat} {f : Key → Option String} {st : Cache}
    {k k2 : Key} (hne : k2 ≠ k) :
    lookupVal (lruCall cap f st k).2.1 k2 = lookupVal st k2 ∨
    lookupVal (lruCall cap f st k).2.1 k2 = none := by
  cases hfind : st.find? (fun e => decide (e.1 = k)) with
  | some e =>
    left
    have he : e.1 = k := by simpa using List.find?_some hfind
    rw [lruCall_hit hfind]
    unfold lookupVal
    rw [List.find?_cons_of_neg _ (by
        simp only [decide_eq_true_eq, he]
        exact fun h2 => hne h2.symm),
      find?_filter_stable _ (fun x hx => by
        have hx2 : x.1 = k2 := of_decide_eq_true hx
        simp [hx2, hne])]
  | none =>
    rw [lruCall_miss hfind]
    unfold lookupVal
    rcases find?_take_cases ((k, f k) :: st) cap (p := fun e => decide (e.1 = k2)) with h | h
    · right; simp [h]
    · left
      rw [h, List.find?_cons_of_neg _ (by
        intro h2
        exact hne (of_decide_eq_true h2).symm)]

theorem length_filter_lt_of_find? {α : Type} {p : α → Bool} :
    ∀ {l : List α} {e : α}, l.find? p = some e →
      (l.filter (fun x => !(p x))).length < l.length := by
  intro l
  induction l with
  | nil => intro e h; simp at h
  | cons a t ih =>
    intro e h
    by_cases hpa : p a = true
    · rw [List.filter_cons_of_neg (by simp [hpa])]
      exact Nat.lt_succ_of_le (List.length_filter_le _ _)
    · rw [List.find?_cons_of_neg _ hpa] at h
      rw [List.filter_cons_of_pos (by simp [hpa])]
      simpa using ih h

theorem lruCall_length_le {cap : Nat} {f : Key → Option String} {st : Cache} {k : Key}
    (h : st.length ≤ cap) : (lruCall cap f st k).2.1.length ≤ cap := by
  cases hfind : st.find? (fun e => decide (e.1 = k)) with
  | none => rw [lruCall_miss hfind]; simp [List.length_take]
  | some e =>
    rw [lruCall_hit hfind]
    have := length_filter_lt_of_find? hfind
    simp only [List.length_cons]
    omega

theorem runCalls_length_le {P : Providers} {ks : List Key} :
    ∀ {st : Cache}, st.length ≤ 1000 → (runCalls P st ks).length ≤ 1000 := by
  induction ks with
  | nil => intro st h; exact h
  | cons k t ih =>
    intro st h
    exact ih (lruCall_length_le h)

/-! ## The eviction scenario: 1000 distinct inserts, one read, one insert -/

/-- One dispatcher call with the four request fields packed as a key;
definitionally equal to `cached_translation` on the unpacked fields. -/
def dispatchAt (P : Providers) (st : Cache) (k : Key) : Option String × Cache × Bool :=
  cached_translation P st k.1 k.2.1 k.2.2.1 k.2.2.2

theorem runCalls_cons {P : Providers} {st : Cache} {k : Key} {t : List Key} :
    runCalls P st (k :: t) = runCalls P (dispatchAt P st k).2.1 t := rfl

theorem dispatchAt_eq_lruCall {P : Providers} {st : Cache} {k : Key} :
    dispatchAt P st k = lruCall 1000 (translateOnce P) st k := rfl

theorem runCalls_nil {P : Providers} {st : Cache} : runCalls P st [] = st := rfl

theorem runCalls_one {P : Providers} {st : Cache} {k : Key} :
    runCalls P st [k] = (lruCall 1000 (translateOnce P) st k).2.1 := by
  rw [runCalls_cons, runCalls_nil, dispatchAt_eq_lruCall]

theorem find?_eq_of_unique {k : Key} {v : Option String} :
    ∀ (l : Cache), (k, v) ∈ l → (∀ e ∈ l, e.1 = k → e = (k, v)) →
      l.find? (fun e => decide (e.1 = k)) = some (k, v) := by
  intro l
  induction l with
  | nil => intro hmem _; simp at hmem
  | cons a t ih =>
    intro hmem huniq
    by_cases ha : a.1 = k
    · have hav : a = (k, v) := huniq a (by simp) ha
      subst hav
      exact List.find?_cons_of_pos _ (by simp)
    · rw [List.find?_cons_of_neg _ (by simpa using ha)]
      rcases List.mem_cons.mp hmem with heq | hmem2
      · exact absurd (by rw [← heq] : a.1 = k) ha
      · exact ih hmem2 (fun e he hek => huniq e (List.mem_cons_of_mem _ he) hek)

theorem runCalls_fill {P : Providers} :
    ∀ (ks : List Key) (st : Cache), ks.Nodup →
      (∀ k ∈ ks, containsKey st k = false) → st.length + ks.length ≤ 1000 →
      runCalls P st ks = (ks.map (fun k => (k, translateOnce P k))).reverse ++ st := by
  intro ks
  induction ks with
  | nil => intro st _ _ _; simp [runCalls]
  | cons k t ih =>
    intro st hnd hfresh hlen
    have hfind : st.find? (fun e => decide (e.1 = k)) = none :=
      containsKey_eq_false.mp (hfresh k (by simp))
    have hstep : (dispatchAt P st k).2.1 = (k, translateOnce P k) :: st := by
      rw [dispatchAt_eq_lruCall, lruCall_miss hfind]
      show ((k, translateOnce P k) :: st).take 1000 = _
      apply List.take_of_length_le
      simp at hlen ⊢
      omega
    rw [runCalls_cons, hstep, ih ((k, translateOnce P k) :: st) (List.nodup_cons.mp hnd).2
      (fun k2 hk2 => by
        have hkne : ¬ k = k2 := fun h => (List.nodup_cons.mp hnd).1 (h ▸ hk2)
        have h2 := hfresh k2 (List.mem_cons_of_mem _ hk2)
        simp only [containsKey, List.any_eq_false, decide_eq_true_eq] at h2 ⊢
        intro x hx
        rcases List.mem_cons.mp hx with rfl | hx2
        · exact hkne
        · exact h2 x hx2)
      (by simp at hlen ⊢; omega)]
    simp

theorem take_1000_cons {a : Key × Option String} {l : Cache} :
    (a :: l).take 1000 = a :: l.take 999 := List.take_succ_cons

theorem take_999_cons {a : Key × Option String} {l : Cache} :
    (a :: l).take 999 = a :: l.take 998 := List.take_succ_cons

theorem ckey_eq_iff {i j : Nat} : ckey i = ckey j ↔ i = j := by
  constructor
  · intro h
    have h2 := congrArg (fun k => k.1.length) h
    simpa [ckey] using h2
  · intro h; rw [h]

/-- The sequence of 1000 pairwise-distinct successful request keys that fills
the cache to capacity. -/
def c2keys : List Key := (List.range 1000).map ckey

/-- Cache after inserting the 1000 distinct keys into a fresh cache. -/
def c2state0 : Cache := runCalls okProviders [] c2keys

/-- Cache after then re-reading the oldest inserted key (a cache hit). -/
def c2state1 : Cache := runCalls okProviders c2state0 [ckey 0]

/-- Cache after then inserting one more distinct key, forcing an eviction. -/
def c2final : Cache := runCalls okProviders c2state1 [ckey 1000]

theorem c2state0_eq : c2state0 =
    (c2keys.map (fun k => (k, translateOnce okProviders k))).reverse := by
  have h := runCalls_fill (P := okProviders) c2keys []
    ((List.nodup_range 1000).map (fun i j h => ckey_eq_iff.mp h))
    (fun _ _ => rfl) (by simp [c2keys])
  simpa [c2state0] using h

theorem mem_c2state0 {e : Key × Option String} (he : e ∈ c2state0) :
    ∃ i, i < 1000 ∧ e = (ckey i, translateOnce okProviders (ckey i)) := by
  rw [c2state0_eq] at he
  simp only [List.mem_reverse, List.mem_map, c2keys, List.mem_range] at he
  obtain ⟨k, ⟨i, hi, rfl⟩, rfl⟩ := he
  exact ⟨i, hi, rfl⟩

theorem c2state0_find0 : c2state0.find? (fun e => decide (e.1 = ckey 0)) =
    some (ckey 0, translateOnce okProviders (ckey 0)) := by
  apply find?_eq_of_unique
  · rw [c2state0_eq]
    simp only [List.mem_reverse, List.mem_map, c2keys, List.mem_range]
    exact ⟨ckey 0, ⟨0, by omega, rfl⟩, rfl⟩
  · intro e he h1
    obtain ⟨i, _, rfl⟩ := mem_c2state0 he
    have hi0 : i = 0 := ckey_eq_iff.mp h1
    rw [hi0]

theorem c2state1_eq : c2state1 = (ckey 0, translateOnce okProviders (ckey 0)) ::
    ((List.range 999).map
      (fun j => (ckey (j + 1), translateOnce okProviders (ckey (j + 1))))).reverse := by
  have e0 : c2state1 = runCalls okProviders c2state0 [ckey 0] := rfl
  rw [runCalls_one] at e0
  have einner : ((c2keys.map (fun k => (k, translateOnce okProviders k))).filter
      (fun e2 => !(decide (e2.1 = ckey 0)))) =
      (List.range 999).map
        (fun j => (ckey (j + 1), translateOnce okProviders (ckey (j + 1)))) := by
    rw [List.filter_map, c2keys, List.filter_map]
    rw [List.filter_congr (q := fun i => !(decide (i = 0)))
      (fun i _ => by simp [Function.comp, ckey_eq_iff])]
    rw [show List.range 1000 = 0 :: List.map Nat.succ (List.range 999) from
      List.range_succ_eq_map 999]
    rw [List.filter_cons_of_neg (by simp), List.filter_map]
    rw [List.filter_eq_self.mpr (fun a _ => by simp [Function.comp])]
    rw [List.map_map, List.map_map]
    rfl
  have efil : c2state0.filter (fun e2 => !(decide (e2.1 = ckey 0))) =
      ((List.range 999).map
        (fun j => (ckey (j + 1), translateOnce okProviders (ckey (j + 1))))).reverse := by
    rw [c2state0_eq, List.filter_reverse, einner]
  rw [e0, lruCall_hit_state c2state0_find0, efil]

theorem c2state1_find1000 :
    c2state1.find? (fun e => decide (e.1 = ckey 1000)) = none := by
  rw [c2state1_eq]
  rw [List.find?_cons_of_neg _ (by simp [ckey_eq_iff])]
  rw [List.find?_eq_none]
  intro x hx
  simp only [List.mem_reverse, List.mem_map, List.mem_range] at hx
  obtain ⟨j, hj, rfl⟩ := hx
  simp [ckey_eq_iff]
  omega

theorem c2final_eq : c2final = (ckey 1000, translateOnce okProviders (ckey 1000)) ::
    (ckey 0, translateOnce okProviders (ckey 0)) ::
    ((List.range 998).map
      (fun j => (ckey (j + 2), translateOnce okProviders (ckey (j + 2))))).reverse := by
  have e0 : c2final = runCalls okProviders c2state1 [ckey 1000] := rfl
  rw [runCalls_one] at e0
  have e2 : ((List.range 999).map
      (fun j => (ckey (j + 1), translateOnce okProviders (ckey (j + 1))))).reverse.take 998 =
      ((List.range 998).map
        (fun j => (ckey (j + 2), translateOnce okProviders (ckey (j + 2))))).reverse := by
    rw [show List.range 999 = 0 :: List.map Nat.succ (List.range 998) from
      List.range_succ_eq_map 998]
    rw [List.map_cons, List.reverse_cons]
    rw [List.take_left' (by simp)]
    rw [List.map_map]
    rfl
  have etail : c2state1.take 999 =
      (ckey 0, translateOnce okProviders (ckey 0)) ::
      ((List.range 998).map
        (fun j => (ckey (j + 2), translateOnce okProviders (ckey (j + 2))))).reverse := by
    rw [c2state1_eq, take_999_cons, e2]
  rw [e0, lruCall_miss_state c2state1_find1000, take_1000_cons, etail]

theorem cached_translation_def {P : Providers} {st : Cache}
    {text src tgt svc : String} :
    cached_translation P st text src tgt svc =
    lruCall 1000 (translateOnce P) st (text, src, tgt, svc) := rfl

/-! ## Claim C1 -/

/-- Claim C1 counterexample: with a backend that always fails and a fresh
cache, the first dispatcher call for the key (hi, auto, es, google) fails —
and the `lru_cache` wrapper caches that `None` result: the cache is no longer
empty afterwards, and the identical second call is answered without invoking
the backend adapter again, contradicting both the no-insertion and the
re-invocation parts of the claim. -/
theorem C1_counterexample :
    (cached_translation failProviders [] "hi" "auto" "es" "google").1 = none ∧
    (cached_translation failProviders [] "hi" "auto" "es" "google").2.1 ≠ [] ∧
    (cached_translation failProviders
      (cached_translation failProviders [] "hi" "auto" "es" "google").2.1
      "hi" "auto" "es" "google").2.2 = false := by
  decide

/-- Claim C1 (amended): on a backend failure the dispatcher caches the `None`
failure result under the request key (negative caching), so a subsequent call
with the identical key does not invoke the backend adapter again and returns
the same failure; a key is retired from re-invocation once any call for it
completes, not only a successful one. -/
theorem C1_failure_negative_caching (P : Providers) (st : Cache)
    (text src tgt svc : String)
    (hfail : (cached_translation P st text src tgt svc).1 = none) :
    containsKey (cached_translation P st text src tgt svc).2.1
      (text, src, tgt, svc) = true ∧
    (cached_translation P (cached_translation P st text src tgt svc).2.1
      text src tgt svc).1 = none ∧
    (cached_translation P (cached_translation P st text src tgt svc).2.1
      text src tgt svc).2.2 = false := by
  simp only [cached_translation_def] at hfail ⊢
  have hrep := @lruCall_repeat 1000 (translateOnce P) st (text, src, tgt, svc)
    (by norm_num)
  obtain ⟨rest, hhead⟩ := @lruCall_head 1000 (translateOnce P) st (text, src, tgt, svc)
    (by norm_num)
  refine ⟨?_, hrep.1.trans hfail, hrep.2⟩
  rw [hhead]
  simp [containsKey]

/-- Witness for the amended claim C1 at a concrete failing call. -/
theorem C1_witness :
    (cached_translation failProviders [] "hola" "auto" "es" "google").1 = none ∧
    (containsKey (cached_translation failProviders [] "hola" "auto" "es" "google").2.1
      ("hola", "auto", "es", "google") = true ∧
    (cached_translation failProviders
      (cached_translation failProviders [] "hola" "auto" "es" "google").2.1
      "hola" "auto" "es" "google").1 = none ∧
    (cached_translation failProviders
      (cached_translation failProviders [] "hola" "auto" "es" "google").2.1
      "hola" "auto" "es" "google").2.2 = false) :=
  ⟨by decide, C1_failure_negative_caching failProviders [] "hola" "auto" "es" "google"
    (by decide)⟩

/-! ## Claim C2 -/

/-- Claim C2 counterexample: fill the cache with 1000 distinct successful
keys, then read the oldest inserted key (a cache hit), then insert one more
distinct successful key. The claim predicts the oldest inserted key (ckey 0)
is evicted regardless of reads; in fact ckey 0 survives (the read refreshed
its recency) and the least recently used key ckey 1 is evicted instead. -/
theorem C2_counterexample :
    containsKey c2final (ckey 0) = true ∧
    containsKey c2final (ckey 1) = false ∧
    c2final.length = 1000 := by
  refine ⟨?_, ?_, ?_⟩
  · rw [c2final_eq]
    apply List.any_eq_true.mpr
    exact ⟨(ckey 0, translateOnce okProviders (ckey 0)), by simp, by simp⟩
  · rw [c2final_eq]
    apply List.any_eq_false.mpr
    intro x hx
    simp only [List.mem_cons, List.mem_reverse, List.mem_map, List.mem_range] at hx
    rcases hx with rfl | rfl | ⟨j, hj, rfl⟩ <;>
      simp only [decide_eq_true_eq, ckey_eq_iff] <;> omega
  · rw [c2final_eq]
    simp

/-- Claim C2 (amended): the cache never holds more than 1000 entries, and on
an insertion that would exceed capacity the evicted entry is the least
recently *used* one — the last entry in recency order — while a cache hit
moves the read entry back to the front of the recency order, so eviction is
not independent of reads. -/
theorem C2_capacity_lru_eviction :
    (∀ (P : Providers) (st : Cache) (ks : List Key),
      st.length ≤ 1000 → (runCalls P st ks).length ≤ 1000) ∧
    (∀ (P : Providers) (st : Cache) (text src tgt svc : String),
      containsKey st (text, src, tgt, svc) = false → st.length = 1000 →
      (cached_translation P st text src tgt svc).2.1 =
        ((text, src, tgt, svc), translateOnce P (text, src, tgt, svc)) :: st.dropLast) ∧
    (∀ (P : Providers) (st : Cache) (text src tgt svc : String)
      (e : Key × Option String),
      st.find? (fun e2 => decide (e2.1 = ((text, src, tgt, svc) : Key))) = some e →
      (cached_translation P st text src tgt svc).2.1 =
        e :: st.filter (fun e2 => !(decide (e2.1 = ((text, src, tgt, svc) : Key)))) ∧
      (cached_translation P st text src tgt svc).2.2 = false) := by
  refine ⟨fun P st ks h => runCalls_length_le h, ?_, ?_⟩
  · intro P st text src tgt svc h1 h2
    have hfind := containsKey_eq_false.mp h1
    rw [cached_translation_def, lruCall_miss hfind]
    show (((text, src, tgt, svc), translateOnce P (text, src, tgt, svc)) :: st).take 1000 = _
    rw [show (1000 : Nat) = 999 + 1 from rfl, List.take_succ_cons]
    congr 1
    rw [List.dropLast_eq_take, h2]
  · intro P st text src tgt svc e hfind
    rw [cached_translation_def, lruCall_hit hfind]
    exact ⟨rfl, rfl⟩

/-- Witness for the amended claim C2: the capacity bound on the concrete
1000-key fill, a concrete full-cache eviction, and a concrete hit. -/
theorem C2_witness :
    (runCalls okProviders [] c2keys).length ≤ 1000 ∧
    ((cached_translation okProviders c2state0 (ckey 1000).1 "auto" "es" "google").2.1 =
      (((ckey 1000).1, "auto", "es", "google"),
        translateOnce okProviders ((ckey 1000).1, "auto", "es", "google")) ::
        c2state0.dropLast) ∧
    ((cached_translation okProviders [(("h", "auto", "es", "google"), some "x")]
      "h" "auto" "es" "google").2.2 = false) := by
  have h1 : containsKey c2state0 ((ckey 1000).1, "auto", "es", "google") = false := by
    apply List.any_eq_false.mpr
    intro x hx
    obtain ⟨i, hi, rfl⟩ := mem_c2state0 hx
    simp only [decide_eq_true_eq]
    intro h
    have h2 : i = 1000 := ckey_eq_iff.mp h
    omega
  have h2 : c2state0.length = 1000 := by
    rw [c2state0_eq]
    simp [c2keys]
  exact ⟨C2_capacity_lru_eviction.1 okProviders [] c2keys (by simp),
    C2_capacity_lru_eviction.2.1 okProviders c2state0 (ckey 1000).1 "auto" "es" "google"
      h1 h2,
    (C2_capacity_lru_eviction.2.2 okProviders [(("h", "auto", "es", "google"), some "x")]
      "h" "auto" "es" "google" (("h", "auto", "es", "google"), some "x") rfl).2⟩

/-! ## Claim C5 -/

/-- Claim C5: after a dispatcher call for a key has succeeded, a second call
with the identical key does not invoke the backend adapter (cache hit) and
returns the same value as the first call. -/
theorem C5_idempotence (P : Providers) (st : Cache) (text src tgt svc v : String)
    (hsucc : (cached_translation P st text src tgt svc).1 = some v) :
    (cached_translation P (cached_translation P st text src tgt svc).2.1
      text src tgt svc).1 = some v ∧
    (cached_translation P (cached_translation P st text src tgt svc).2.1
      text src tgt svc).2.2 = false := by
  simp only [cached_translation_def] at hsucc ⊢
  have hrep := @lruCall_repeat 1000 (translateOnce P) st (text, src, tgt, svc)
    (by norm_num)
  exact ⟨hrep.1.trans hsucc, hrep.2⟩

/-- Witness for claim C5 at a concrete successful call. -/
theorem C5_witness :
    (cached_translation okProviders [] "hello" "auto" "es" "google").1 = some "G:hello" ∧
    ((cached_translation okProviders
        (cached_translation okProviders [] "hello" "auto" "es" "google").2.1
        "hello" "auto" "es" "google").1 = some "G:hello" ∧
      (cached_translation okProviders
        (cached_translation okProviders [] "hello" "auto" "es" "google").2.1
        "hello" "auto" "es" "google").2.2 = false) :=
  ⟨by decide,
    C5_idempotence okProviders [] "hello" "auto" "es" "google" "G:hello" (by decide)⟩

/-! ## Claim C6 -/

/-- Claim C6: the backend name is part of the cache key. Keys differing only
in the backend name are distinct keys; a call that is answered without
invoking the backend reads the entry stored under its own key; a call that
invokes the backend returns the provider body's result for its own key; and
a call never changes the value stored under any other key (an existing entry
of another key is either untouched or evicted, never overwritten). -/
theorem C6_key_discrimination :
    (∀ (text src tgt b1 b2 : String), b1 ≠ b2 →
      ((text, src, tgt, b1) : Key) ≠ (text, src, tgt, b2)) ∧
    (∀ (P : Providers) (st : Cache) (text src tgt svc : String),
      (cached_translation P st text src tgt svc).2.2 = false →
      ((text, src, tgt, svc), (cached_translation P st text src tgt svc).1) ∈ st) ∧
    (∀ (P : Providers) (st : Cache) (text src tgt svc : String),
      (cached_translation P st text src tgt svc).2.2 = true →
      (cached_translation P st text src tgt svc).1 =
        translateOnce P (text, src, tgt, svc)) ∧
    (∀ (P : Providers) (st : Cache) (text src tgt svc : String) (k2 : Key),
      k2 ≠ (text, src, tgt, svc) →
      lookupVal (cached_translation P st text src tgt svc).2.1 k2 = lookupVal st k2 ∨
      lookupVal (cached_translation P st text src tgt svc).2.1 k2 = none) := by
  refine ⟨?_, ?_, ?_, ?_⟩
  · intro text src tgt b1 b2 hne h
    apply hne
    simpa using congrArg (fun k => k.2.2.2) h
  · intro P st text src tgt svc h
    simp only [cached_translation_def] at h ⊢
    exact lruCall_read_own_entry h
  · intro P st text src tgt svc h
    simp only [cached_translation_def] at h ⊢
    exact lruCall_invoked_result h
  · intro P st text src tgt svc k2 hne
    simp only [cached_translation_def]
    exact lruCall_preserves_other hne

/-- Witness for claim C6 at concrete calls. -/
theorem C6_witness :
    ((("hola", "auto", "es", "google") : Key) ≠ ("hola", "auto", "es", "mymemory")) ∧
    ((("hola", "auto", "es", "google"),
      (cached_translation okProviders [(("hola", "auto", "es", "google"), some "cached")]
        "hola" "auto" "es" "google").1) ∈
      ([(("hola", "auto", "es", "google"), some "cached")] : Cache)) ∧
    ((cached_translation okProviders [] "hola" "auto" "es" "google").1 =
      translateOnce okProviders ("hola", "auto", "es", "google")) ∧
    (lookupVal (cached_translation okProviders [] "hola" "auto" "es" "google").2.1
        ("adios", "auto", "es", "google") =
      lookupVal ([] : Cache) ("adios", "auto", "es", "google") ∨
    lookupVal (cached_translation okProviders [] "hola" "auto" "es" "google").2.1
        ("adios", "auto", "es", "google") = none) :=
  ⟨C6_key_discrimination.1 "hola" "auto" "es" "google" "mymemory" (by decide),
    C6_key_discrimination.2.1 okProviders
      [(("hola", "auto", "es", "google"), some "cached")] "hola" "auto" "es" "google"
      (by decide),
    C6_key_discrimination.2.2.1 okProviders [] "hola" "auto" "es" "google" (by decide),
    C6_key_discrimination.2.2.2 okProviders [] "hola" "auto" "es" "google"
      ("adios", "auto", "es", "google") (by decide)⟩

/-! ## Claim C7 -/

/-- Claim C7: an unrecognized backend name does not fail: backend selection
falls back to the google strategy, and the dispatch body returns exactly what
it returns for the google backend on the same text and language pair. -/
theorem C7_unknown_backend_fallback (P : Providers) (svc : String)
    (h1 : svc ≠ "google") (h2 : svc ≠ "microsoft") (h3 : svc ≠ "mymemory") :
    selectTranslator P svc = P.google ∧
    ∀ (text src tgt : String),
      translateOnce P (text, src, tgt, svc) = translateOnce P (text, src, tgt, "google") := by
  have hsel : selectTranslator P svc = P.google := by
    unfold selectTranslator
    rw [if_neg h1, if_neg h2, if_neg h3]
  refine ⟨hsel, fun text src tgt => ?_⟩
  show (match selectTranslator P svc src tgt text with
    | .ok t => some t
    | .error _ => none) = _
  rw [hsel]
  rfl

/-- Witness for claim C7 at the backend name unknown-provider. -/
theorem C7_witness :
    selectTranslator okProviders "unknown-provider" = okProviders.google ∧
    translateOnce okProviders ("hola", "auto", "es", "unknown-provider") =
      translateOnce okProviders ("hola", "auto", "es", "google") := by
  have h := C7_unknown_backend_fallback okProviders "unknown-provider"
    (by decide) (by decide) (by decide)
  exact ⟨h.1, h.2 "hola" "auto" "es"⟩

/-! ## Claim C8 -/

/-- Claim C8: a single-translate call whose text strips to the empty string
fails with the invalid-input response (HTTP 400) and no provider call is
attempted; likewise a call whose stripped text exceeds 5000 characters fails
with the length-cap invalid-input response (HTTP 400) before any provider
call. -/
theorem C8_input_validation (P : Providers) (st : Cache)
    (text0 tgt src svc : String) :
    (pyStrip text0 = "" →
      translate P st text0 tgt src svc = (.err "Text is required" 400, st, false)) ∧
    (5000 < (pyStrip text0).length →
      translate P st text0 tgt src svc =
        (.err "Text too long (max 5000 characters)" 400, st, false)) := by
  constructor
  · intro h
    simp [translate, h]
  · intro h
    have hne : ¬ pyStrip text0 = "" := by
      intro h0
      rw [h0] at h
      simp at h
    simp [translate, hne, h]

theorem pyStrip_longx : pyStrip longx = longx := by
  unfold pyStrip longx
  rw [show (5001 : Nat) = 5000 + 1 from rfl]
  rw [List.replicate_succ]
  rw [List.dropWhile_cons_of_neg (by decide)]
  rw [← List.replicate_succ, List.reverse_replicate]
  rw [List.replicate_succ, List.dropWhile_cons_of_neg (by decide)]
  rw [← List.replicate_succ, List.reverse_replicate]

theorem longx_length : longx.length = 5001 := by
  rw [show longx = String.mk (List.replicate 5001 'x') from rfl, String.length_mk,
    List.length_replicate]

/-- Witness for claim C8: the whitespace-only text and the 5001-character
text. -/
theorem C8_witness :
    (pyStrip "   " = "" ∧
      translate okProviders [] "   " "es" "auto" "google" =
        (.err "Text is required" 400, [], false)) ∧
    (5000 < (pyStrip longx).length ∧
      translate okProviders [] longx "es" "auto" "google" =
        (.err "Text too long (max 5000 characters)" 400, [], false)) := by
  have h5 : 5000 < (pyStrip longx).length := by
    rw [pyStrip_longx, longx_length]
    norm_num
  exact ⟨⟨by decide,
      (C8_input_validation okProviders [] "   " "es" "auto" "google").1 (by decide)⟩,
    ⟨h5, (C8_input_validation okProviders [] longx "es" "auto" "google").2 h5⟩⟩

/-! ## Lemmas about the batch loop -/

theorem batchItemStep_index (P : Providers) (src tgt svc : String) (st : Cache)
    (i : Nat) (t : JVal) : (batchItemStep P src tgt svc st i t).1.index = i := by
  cases t with
  | other b => rfl
  | str s =>
    simp only [batchItemStep]
    split
    · rfl
    · split
      · rfl
      · split
        · rfl
        · split
          · rfl
          · rfl

theorem processItems_spec (P : Providers) (src tgt svc : String) :
    ∀ (ts : List JVal) (i : Nat) (st : Cache),
      (processItems P src tgt svc i st ts).1.length = ts.length ∧
      (processItems P src tgt svc i st ts).1.map (fun b => b.index) =
        List.range' i ts.length := by
  intro ts
  induction ts with
  | nil => intro i st; exact ⟨rfl, rfl⟩
  | cons t ts2 ih =>
    intro i st
    have hstep := batchItemStep_index P src tgt svc st i t
    have hih := ih (i + 1) (batchItemStep P src tgt svc st i t).2.1
    constructor
    · show ((batchItemStep P src tgt svc st i t).1 ::
        (processItems P src tgt svc (i + 1)
          (batchItemStep P src tgt svc st i t).2.1 ts2).1).length = ts2.length + 1
      simp [hih.1]
    · show ((batchItemStep P src tgt svc st i t).1 ::
        (processItems P src tgt svc (i + 1)
          (batchItemStep P src tgt svc st i t).2.1 ts2).1).map (fun b => b.index) =
        List.range' i (ts2.length + 1)
      rw [List.map_cons, hstep, hih.2]
      rfl

/-! ## Claim C3 -/

/-- Claim C3: when the selected provider strategy raises on an uncached
request, the failure propagates as the dispatcher's `None`, and the batch
item for that text carries the dispatcher failure description: empty
translated text and the error "Translation failed" — uniformly, whatever the
provider error message was. -/
theorem C3_failure_propagation (P : Providers) (st : Cache)
    (src tgt svc : String) (i : Nat) (s msg : String)
    (hne : s ≠ "") (hlen : ¬ s.length > 5000)
    (hmiss : containsKey st (pyStrip s, src, tgt, svc) = false)
    (herr : selectTranslator P svc src tgt (pyStrip s) = .error msg) :
    (cached_translation P st (pyStrip s) src tgt svc).1 = none ∧
    (batchItemStep P src tgt svc st i (.str s)).1.translated_text = "" ∧
    (batchItemStep P src tgt svc st i (.str s)).1.error = some "Translation failed" := by
  have hbody : translateOnce P (pyStrip s, src, tgt, svc) = none := by
    show (match selectTranslator P svc src tgt (pyStrip s) with
      | .ok t => some t
      | .error _ => none) = none
    rw [herr]
  have hfind := containsKey_eq_false.mp hmiss
  have hdisp : (cached_translation P st (pyStrip s) src tgt svc).1 = none := by
    rw [cached_translation_def, lruCall_miss hfind]
    exact hbody
  have hc : cached_translation P st (pyStrip s) src tgt svc =
      (none, (((pyStrip s, src, tgt, svc), (none : Option String)) :: st).take 1000,
        true) := by
    rw [cached_translation_def, lruCall_miss hfind, hbody]
  refine ⟨hdisp, ?_, ?_⟩ <;> simp [batchItemStep, hne, hlen, hc]

/-- Witness for claim C3 at a concrete provider failure. -/
theorem C3_witness :
    selectTranslator failProviders "google" "auto" "es" (pyStrip "bonjour") =
      .error "network down" ∧
    ((cached_translation failProviders [] (pyStrip "bonjour") "auto" "es" "google").1 =
      none ∧
    (batchItemStep failProviders "auto" "es" "google" [] 0
      (.str "bonjour")).1.translated_text = "" ∧
    (batchItemStep failProviders "auto" "es" "google" [] 0
      (.str "bonjour")).1.error = some "Translation failed") :=
  ⟨rfl, C3_failure_propagation failProviders [] "auto" "es" "google" 0 "bonjour"
    "network down" (by decide) (by decide) rfl rfl⟩

/-! ## Claim C9 -/

/-- Claim C9: a batch whose texts list is non-empty and has at most 100
elements always gets the success response: HTTP 200 payload with
success = true and total_processed = number of input texts, however the
individual items fare. -/
theorem C9_batch_always_succeeds (P : Providers) (st : Cache) (texts : List JVal)
    (tgt src svc : String) (h1 : texts ≠ []) (h2 : texts.length ≤ 100) :
    batch_translate P st texts tgt src svc =
      (.ok (processItems P src tgt svc 0 st texts).1 texts.length true,
        (processItems P src tgt svc 0 st texts).2) := by
  unfold batch_translate
  rw [if_neg h1, if_neg (by omega : ¬ texts.length > 100)]
  have hlen := (processItems_spec P src tgt svc texts 0 st).1
  simp [hlen]

/-- Witness for claim C9 on a two-item batch on which every item fails. -/
theorem C9_witness :
    (([JVal.str "", JVal.other true] : List JVal) ≠ [] ∧
      ([JVal.str "", JVal.other true] : List JVal).length ≤ 100) ∧
    batch_translate failProviders [] [JVal.str "", JVal.other true] "es" "auto" "google" =
      (.ok (processItems failProviders "auto" "es" "google" 0 []
          [JVal.str "", JVal.other true]).1
        ([JVal.str "", JVal.other true] : List JVal).length true,
        (processItems failProviders "auto" "es" "google" 0 []
          [JVal.str "", JVal.other true]).2) :=
  ⟨⟨by decide, by decide⟩,
    C9_batch_always_succeeds failProviders [] [JVal.str "", JVal.other true]
      "es" "auto" "google" (by decide) (by decide)⟩

/-! ## Claim C10 -/

theorem longspace_length : longspace.length = 5001 := by
  rw [show longspace = String.mk (List.replicate 5001 ' ') from rfl, String.length_mk,
    List.length_replicate]

theorem longspace_ne_empty : longspace ≠ "" := by
  intro h
  have h2 := congrArg String.length h
  rw [longspace_length] at h2
  simp at h2

/-- Claim C10 counterexample: the non-empty string of 5001 whitespace
characters is whitespace-only, yet the batch loop rejects it for length: the
item gets error "Text too long" and no dispatcher call is made. -/
theorem C10_counterexample :
    longspace ≠ "" ∧
    longspace.data.all (fun c => c.isWhitespace) = true ∧
    (batchItemStep okProviders "auto" "es" "google" [] 0 (.str longspace)).1.error =
      some "Text too long" ∧
    (batchItemStep okProviders "auto" "es" "google" [] 0 (.str longspace)).2.2 = false := by
  refine ⟨longspace_ne_empty, ?_, ?_, ?_⟩
  · apply List.all_eq_true.mpr
    intro c hc
    have hc2 : c ∈ List.replicate 5001 ' ' := hc
    rw [List.mem_replicate] at hc2
    rw [hc2.2]
    decide
  · simp [batchItemStep, longspace_ne_empty, longspace_length]
  · simp [batchItemStep, longspace_ne_empty, longspace_length]

/-- Claim C10 (amended): a batch item that is a non-empty whitespace-only
string of at most 5000 characters is not rejected as "Invalid text" and not
rejected for length: the dispatcher is invoked with the item stripped to the
empty string (the cache gains the empty-text key), while the item's
original_text field echoes the raw untrimmed input string. -/
theorem C10_whitespace_item (P : Providers) (src tgt svc : String) (st : Cache)
    (i : Nat) (s : String) (hne : s ≠ "") (hws : pyStrip s = "")
    (hlen : ¬ s.length > 5000)
    (hfresh : containsKey st ("", src, tgt, svc) = false) :
    (batchItemStep P src tgt svc st i (.str s)).1.original_text = .str s ∧
    (batchItemStep P src tgt svc st i (.str s)).1.error ≠ some "Invalid text" ∧
    (batchItemStep P src tgt svc st i (.str s)).1.error ≠ some "Text too long" ∧
    (batchItemStep P src tgt svc st i (.str s)).2.2 = true ∧
    (batchItemStep P src tgt svc st i (.str s)).2.1 =
      ((("", src, tgt, svc), translateOnce P ("", src, tgt, svc)) :: st).take 1000 := by
  have hfind := containsKey_eq_false.mp hfresh
  have hdisp : cached_translation P st (pyStrip s) src tgt svc =
      (translateOnce P ("", src, tgt, svc),
        ((("", src, tgt, svc), translateOnce P ("", src, tgt, svc)) :: st).take 1000,
        true) := by
    rw [hws, cached_translation_def, lruCall_miss hfind]
  cases hv : translateOnce P ("", src, tgt, svc) with
  | none =>
    rw [hv] at hdisp
    simp [batchItemStep, hne, hlen, hdisp, hv]
  | some tr =>
    rw [hv] at hdisp
    by_cases htr : tr = ""
    · simp [batchItemStep, hne, hlen, hdisp, hv, htr]
    · simp [batchItemStep, hne, hlen, hdisp, hv, htr]

/-- Witness for the amended claim C10 at the one-space string. -/
theorem C10_witness :
    ((" " : String) ≠ "" ∧ pyStrip " " = "" ∧ ¬ (" " : String).length > 5000) ∧
    ((batchItemStep stubProviders "auto" "es" "google" [] 0
        (.str " ")).1.original_text = .str " " ∧
      (batchItemStep stubProviders "auto" "es" "google" [] 0
        (.str " ")).1.error ≠ some "Invalid text" ∧
      (batchItemStep stubProviders "auto" "es" "google" [] 0
        (.str " ")).1.error ≠ some "Text too long" ∧
      (batchItemStep stubProviders "auto" "es" "google" [] 0 (.str " ")).2.2 = true ∧
      (batchItemStep stubProviders "auto" "es" "google" [] 0 (.str " ")).2.1 =
        ((("", "auto", "es", "google"),
          translateOnce stubProviders ("", "auto", "es", "google")) :: []).take 1000) :=
  ⟨⟨by decide, by decide, by decide⟩,
    C10_whitespace_item stubProviders "auto" "es" "google" [] 0 " "
      (by decide) (by decide) (by decide) rfl⟩

/-! ## Claim C4 -/

theorem longx_ne_empty : longx ≠ "" := by
  intro h
  have h2 := congrArg String.length h
  rw [longx_length] at h2
  simp at h2

theorem c4_item_long (P : Providers) (src tgt svc : String) (st : Cache) (i : Nat)
    (s : String) (hne : s ≠ "") (hlen : s.length > 5000) :
    batchItemStep P src tgt svc st i (.str s) =
      (⟨i, .str s, "", some "Text too long"⟩, st, false) := by
  simp [batchItemStep, hne, hlen]

theorem c4_items_gen (s : String) (hne : s ≠ "") (hlen : s.length > 5000) :
    processItems stubProviders "auto" "es" "google" 0 []
      [.str "hello", .str "", .str s, .str "world"] =
    ([⟨0, .str "hello", "G:hello", none⟩, ⟨1, .str "", "", some "Invalid text"⟩,
      ⟨2, .str s, "", some "Text too long"⟩, ⟨3, .str "world", "G:world", none⟩],
      [(("world", "auto", "es", "google"), some "G:world"),
        (("hello", "auto", "es", "google"), some "G:hello")]) := by
  have h0 : batchItemStep stubProviders "auto" "es" "google" [] 0 (.str "hello") =
      (⟨0, .str "hello", "G:hello", none⟩,
        [(("hello", "auto", "es", "google"), some "G:hello")], true) := rfl
  have h1 : batchItemStep stubProviders "auto" "es" "google"
      [(("hello", "auto", "es", "google"), some "G:hello")] 1 (.str "") =
      (⟨1, .str "", "", some "Invalid text"⟩,
        [(("hello", "auto", "es", "google"), some "G:hello")], false) := rfl
  have h2 : batchItemStep stubProviders "auto" "es" "google"
      [(("hello", "auto", "es", "google"), some "G:hello")] 2 (.str s) =
      (⟨2, .str s, "", some "Text too long"⟩,
        [(("hello", "auto", "es", "google"), some "G:hello")], false) :=
    c4_item_long stubProviders "auto" "es" "google" _ 2 s hne hlen
  have h3 : batchItemStep stubProviders "auto" "es" "google"
      [(("hello", "auto", "es", "google"), some "G:hello")] 3 (.str "world") =
      (⟨3, .str "world", "G:world", none⟩,
        [(("world", "auto", "es", "google"), some "G:world"),
          (("hello", "auto", "es", "google"), some "G:hello")], true) := rfl
  simp only [processItems, h0, h1, h2, h3]

/-- Claim C4: on the batch (hello, empty, 5001 x-characters, world) with the
stub backend that succeeds exactly on non-empty texts of at most 5000
characters, the response holds exactly 4 items indexed 0..3 in input order:
item 1 has error "Invalid text" and empty translation, item 2 has error
"Text too long" and empty translation, items 0 and 3 have non-empty
translations and no error; and in general the loop emits exactly one result
per input item with indices 0..n-1 in order, whatever each item does. -/
theorem C4_batch_isolation :
    (batch_translate stubProviders [] [.str "hello", .str "", .str longx, .str "world"]
        "es" "auto" "google").1 =
      .ok [⟨0, .str "hello", "G:hello", none⟩, ⟨1, .str "", "", some "Invalid text"⟩,
        ⟨2, .str longx, "", some "Text too long"⟩, ⟨3, .str "world", "G:world", none⟩]
        4 true ∧
    ("G:hello" : String) ≠ "" ∧ ("G:world" : String) ≠ "" ∧
    (∀ (P : Providers) (st : Cache) (tgt src svc : String) (texts : List JVal),
      (processItems P src tgt svc 0 st texts).1.length = texts.length ∧
      (processItems P src tgt svc 0 st texts).1.map (fun b => b.index) =
        List.range texts.length) := by
  refine ⟨?_, by decide, by decide, ?_⟩
  · have h := c4_items_gen longx longx_ne_empty (by rw [longx_length]; norm_num)
    unfold batch_translate
    rw [if_neg (by simp), if_neg (by simp)]
    rw [h]
    rfl
  · intro P st tgt src svc texts
    have h := processItems_spec P src tgt svc texts 0 st
    rw [List.range_eq_range']
    exact h

end AskCloud
